/-
Verification of the PX4 matrix library quaternion type
(src/lib/ecl/matrix/matrix/Quaternion.hpp) against its specification.

The C++ code is a header-only template class `Quaternion<Type>` storing four
scalars q(0..3) (real part first).  We embed it shallowly over the real
numbers: each member function becomes a Lean function on a four-field
structure.  Member functions that mutate `*this` are embedded as functions
returning the new value (taking the prior state of the receiver as an argument
when the function can read it).  The base-class `Vector` operations used by
the quaternion code (dot product, norm, elementwise scaling) are part of the
same repository but their source file is not available here; they are
modelled from the description of the vector primitives in the spec.
-/
import Mathlib

noncomputable section

namespace PX4

/-- A quaternion `(q0, q1, q2, q3)`, real part first, as stored by the C++
class `Quaternion<Type> : Vector<Type, 4>`. -/
@[ext]
structure Quaternion where
  q0 : ℝ
  q1 : ℝ
  q2 : ℝ
  q3 : ℝ

/-- A 3-vector, as stored by `Vector<Type, 3>` / `Matrix31` / `Vector3f`. -/
@[ext]
structure Vector3 where
  x0 : ℝ
  x1 : ℝ
  x2 : ℝ

/-- A 3x3 matrix `Dcm<Type>`, element `R(i,j)` stored in field `rij`. -/
@[ext]
structure Dcm where
  r00 : ℝ
  r01 : ℝ
  r02 : ℝ
  r10 : ℝ
  r11 : ℝ
  r12 : ℝ
  r20 : ℝ
  r21 : ℝ
  r22 : ℝ

/-- Modelled from the spec: `Matrix::trace` (base matrix class, source file
not available here) is the sum of the diagonal elements. -/
def Dcm.trace (R : Dcm) : ℝ :=
  R.r00 + R.r11 + R.r22

/-- The no-argument constructor `Quaternion()` (Quaternion.hpp lines 73-81):
sets `q(0)=1, q(1)=q(2)=q(3)=0`. -/
def Quaternion.default : Quaternion :=
  ⟨1, 0, 0, 0⟩

/-- The member function `Quaternion::operator*(const Quaternion &q)` (Quaternion.hpp lines
218-227), the Hamilton product. -/
def Quaternion.mul (p q : Quaternion) : Quaternion :=
  ⟨p.q0 * q.q0 - p.q1 * q.q1 - p.q2 * q.q2 - p.q3 * q.q3,
   p.q0 * q.q1 + p.q1 * q.q0 + p.q2 * q.q3 - p.q3 * q.q2,
   p.q0 * q.q2 - p.q1 * q.q3 + p.q2 * q.q0 + p.q3 * q.q1,
   p.q0 * q.q3 + p.q1 * q.q2 - p.q2 * q.q1 + p.q3 * q.q0⟩

/-- Modelled from the spec: the scalar multiplication operator inherited from
the vector base class (source file not available here) scales elementwise. -/
def Quaternion.smul (s : ℝ) (q : Quaternion) : Quaternion :=
  ⟨s * q.q0, s * q.q1, s * q.q2, s * q.q3⟩

/-- Modelled from the spec: `Vector::dot` (base vector class, source file not
available here) is the Euclidean dot product of the 4 components. -/
def Quaternion.dot (p q : Quaternion) : ℝ :=
  p.q0 * q.q0 + p.q1 * q.q1 + p.q2 * q.q2 + p.q3 * q.q3

/-- The member function `Quaternion::inversed` (Quaternion.hpp lines 320-329):
`conj(q)` divided componentwise by `q.dot(q)`, with no guard against a zero
norm. -/
def Quaternion.inversed (q : Quaternion) : Quaternion :=
  ⟨q.q0 / q.dot q, -q.q1 / q.dot q, -q.q2 / q.dot q, -q.q3 / q.dot q⟩

/-- The member function `Quaternion::conjugate(const Vector3f &vec)` (Quaternion.hpp lines
344-349): embeds `vec` as the pure quaternion `(0, vec)`, computes
`q * v * q.inversed()` and returns the imaginary part. -/
def Quaternion.conjugate (q : Quaternion) (vec : Vector3) : Vector3 :=
  ⟨((q.mul ⟨0, vec.x0, vec.x1, vec.x2⟩).mul q.inversed).q1,
   ((q.mul ⟨0, vec.x0, vec.x1, vec.x2⟩).mul q.inversed).q2,
   ((q.mul ⟨0, vec.x0, vec.x1, vec.x2⟩).mul q.inversed).q3⟩

/-- The member function `Quaternion::derivative1` (Quaternion.hpp lines 285-290):
`q * (0, w) * 0.5` with the angular rate `w` in the target frame. -/
def Quaternion.derivative1 (q : Quaternion) (w : Vector3) : Quaternion :=
  Quaternion.smul 0.5 (q.mul ⟨0, w.x0, w.x1, w.x2⟩)

/-- The member function `Quaternion::derivative2` (Quaternion.hpp lines 300-305):
`(0, w) * q * 0.5` with the angular rate `w` in the reference frame. -/
def Quaternion.derivative2 (q : Quaternion) (w : Vector3) : Quaternion :=
  Quaternion.smul 0.5 ((Quaternion.mk 0 w.x0 w.x1 w.x2).mul q)

/-- The conjugate `(q0, -q1, -q2, -q3)`; helper used in proofs (the C++ code
writes it out inline inside `inversed`). -/
def Quaternion.conj (q : Quaternion) : Quaternion :=
  ⟨q.q0, -q.q1, -q.q2, -q.q3⟩

/- ---------------------------------------------------------------------
Helper lemmas about the Hamilton product.
--------------------------------------------------------------------- -/

theorem Quaternion.mul_assoc (p q r : Quaternion) :
    (p.mul q).mul r = p.mul (q.mul r) := by
  ext <;> simp only [Quaternion.mul] <;> ring

theorem Quaternion.conj_mul_self (q : Quaternion) :
    (q.conj).mul q = ⟨q.dot q, 0, 0, 0⟩ := by
  ext <;> simp only [Quaternion.mul, Quaternion.conj, Quaternion.dot] <;> ring

theorem Quaternion.mul_conj_self (q : Quaternion) :
    q.mul q.conj = ⟨q.dot q, 0, 0, 0⟩ := by
  ext <;> simp only [Quaternion.mul, Quaternion.conj, Quaternion.dot] <;> ring

theorem Quaternion.inversed_of_unit {q : Quaternion} (h : q.dot q = 1) :
    q.inversed = q.conj := by
  ext <;> simp [Quaternion.inversed, Quaternion.conj, h]

theorem Quaternion.dot_conj (q : Quaternion) :
    q.conj.dot q.conj = q.dot q := by
  simp only [Quaternion.conj, Quaternion.dot]; ring

theorem Quaternion.conj_inversed_of_unit {q : Quaternion} (h : q.dot q = 1) :
    q.conj.inversed = q := by
  have hd : q.conj.dot q.conj = 1 := by rw [Quaternion.dot_conj, h]
  ext <;> simp only [Quaternion.inversed, hd] <;> simp [Quaternion.conj]

/- ---------------------------------------------------------------------
Vector primitives and the axis-angle / DCM related member functions.
--------------------------------------------------------------------- -/

/-- Modelled from the spec: `Vector::norm` (base vector class, source file
not available here) is the Euclidean norm. -/
def Vector3.norm (v : Vector3) : ℝ :=
  Real.sqrt (v.x0 * v.x0 + v.x1 * v.x1 + v.x2 * v.x2)

/-- Modelled from the spec: elementwise division of a vector by a scalar
(base vector class, source file not available here). -/
def Vector3.divS (v : Vector3) (s : ℝ) : Vector3 :=
  ⟨v.x0 / s, v.x1 / s, v.x2 / s⟩

/-- Modelled from the spec: elementwise scaling of a vector by a scalar
(base vector class, source file not available here). -/
def Vector3.scale (v : Vector3) (s : ℝ) : Vector3 :=
  ⟨v.x0 * s, v.x1 * s, v.x2 * s⟩

/-- Modelled from the spec: `AxisAngle` packs axis and angle into one
3-vector whose `unit()` accessor returns the axis, the vector divided by its
norm (AxisAngle source file not available here). -/
def Vector3.unit (v : Vector3) : Vector3 :=
  v.divS v.norm

/-- The member function `Quaternion::from_axis_angle(const Vector<Type,3> &axis, Type theta)`
(Quaternion.hpp lines 390-405), with the prior value of the receiver as first
argument.  The `theta < 1e-10` branch assigns the identity to the receiver,
but there is no `return` and no `else`: execution falls through and the
half-angle assignments below unconditionally overwrite all four components,
so the branch has no effect on the result. -/
def Quaternion.from_axis_angle2 (q : Quaternion) (axis : Vector3)
    (theta : ℝ) : Quaternion :=
  let _q := if theta < 1e-10 then (⟨1, 0, 0, 0⟩ : Quaternion) else q
  let magnitude := Real.sin (theta / 2)
  ⟨Real.cos (theta / 2), axis.x0 * magnitude, axis.x1 * magnitude,
   axis.x2 * magnitude⟩

/-- The constructor `Quaternion(const AxisAngle<Type> &aa)` (Quaternion.hpp
lines 171-187): here the small-angle branch is a genuine if/else, so the
identity result stands. -/
def Quaternion.ofAxisAngle (aa : Vector3) : Quaternion :=
  let angle := aa.norm
  let axis := aa.unit
  if angle < 1e-10 then ⟨1, 0, 0, 0⟩
  else
    let magnitude := Real.sin (angle / 2)
    ⟨Real.cos (angle / 2), axis.x0 * magnitude, axis.x1 * magnitude,
     axis.x2 * magnitude⟩

/-- Modelled from the spec: `wrap_pi` (helper_functions.hpp, source file not
available here) wraps an angle into the interval `(-π, π]`. -/
def wrap_pi (x : ℝ) : ℝ :=
  x - 2 * Real.pi * ⌈x / (2 * Real.pi) - 1 / 2⌉

/-- Modelled from the spec: the C standard library `atan2(y, x)`. -/
def atan2 (y x : ℝ) : ℝ :=
  if 0 < x then Real.arctan (y / x)
  else if x < 0 then
    (if 0 ≤ y then Real.arctan (y / x) + Real.pi
     else Real.arctan (y / x) - Real.pi)
  else if 0 < y then Real.pi / 2
  else if y < 0 then -(Real.pi / 2)
  else 0

/-- The member function `Quaternion::to_axis_angle` (Quaternion.hpp lines 417-432).  When
`axis_magnitude >= 1e-10` the vector `(q1,q2,q3)` is divided by the
magnitude and scaled by the wrapped angle; otherwise the vector `(q1,q2,q3)`
is returned as it was set, without any scaling. -/
def Quaternion.to_axis_angle (q : Quaternion) : Vector3 :=
  let axis_magnitude :=
    Real.sqrt (q.q1 * q.q1 + q.q2 * q.q2 + q.q3 * q.q3)
  let vec : Vector3 := ⟨q.q1, q.q2, q.q3⟩
  if axis_magnitude ≥ 1e-10 then
    (vec.divS axis_magnitude).scale
      (wrap_pi (2 * atan2 axis_magnitude q.q0))
  else vec

/-- The constructor `Quaternion(const Dcm<Type> &R)` (Quaternion.hpp lines
101-135): branch on the trace, else on the diagonal comparisons exactly as
written in the source (`R(0,0) > R(1,1) && R(0,0) > R(2,2)`, then
`R(1,1) > R(2,2)`, both strict). -/
def Quaternion.ofDcm (R : Dcm) : Quaternion :=
  if R.trace > 0 then
    let t := Real.sqrt (1 + R.trace)
    ⟨0.5 * t, (R.r21 - R.r12) * (0.5 / t), (R.r02 - R.r20) * (0.5 / t),
     (R.r10 - R.r01) * (0.5 / t)⟩
  else if R.r00 > R.r11 ∧ R.r00 > R.r22 then
    let t := Real.sqrt (1 + R.r00 - R.r11 - R.r22)
    ⟨(R.r21 - R.r12) * (0.5 / t), 0.5 * t, (R.r10 + R.r01) * (0.5 / t),
     (R.r02 + R.r20) * (0.5 / t)⟩
  else if R.r11 > R.r22 then
    let t := Real.sqrt (1 - R.r00 + R.r11 - R.r22)
    ⟨(R.r02 - R.r20) * (0.5 / t), (R.r10 + R.r01) * (0.5 / t), 0.5 * t,
     (R.r21 + R.r12) * (0.5 / t)⟩
  else
    let t := Real.sqrt (1 - R.r00 - R.r11 + R.r22)
    ⟨(R.r10 - R.r01) * (0.5 / t), (R.r02 + R.r20) * (0.5 / t),
     (R.r21 + R.r12) * (0.5 / t), 0.5 * t⟩

/-- The DCM-to-quaternion conversion as claim C1 words it: when the trace is
not positive, select the branch of the largest diagonal element, breaking
ties in the fixed order `R00, R11, R22` (the earliest of the tied elements
wins); each branch applies the standard extraction formula, identical to
that of the source. -/
def Quaternion.ofDcmClaim (R : Dcm) : Quaternion :=
  if R.trace > 0 then
    let t := Real.sqrt (1 + R.trace)
    ⟨0.5 * t, (R.r21 - R.r12) * (0.5 / t), (R.r02 - R.r20) * (0.5 / t),
     (R.r10 - R.r01) * (0.5 / t)⟩
  else if R.r00 ≥ R.r11 ∧ R.r00 ≥ R.r22 then
    let t := Real.sqrt (1 + R.r00 - R.r11 - R.r22)
    ⟨(R.r21 - R.r12) * (0.5 / t), 0.5 * t, (R.r10 + R.r01) * (0.5 / t),
     (R.r02 + R.r20) * (0.5 / t)⟩
  else if R.r11 ≥ R.r22 then
    let t := Real.sqrt (1 - R.r00 + R.r11 - R.r22)
    ⟨(R.r02 - R.r20) * (0.5 / t), (R.r10 + R.r01) * (0.5 / t), 0.5 * t,
     (R.r21 + R.r12) * (0.5 / t)⟩
  else
    let t := Real.sqrt (1 - R.r00 - R.r11 + R.r22)
    ⟨(R.r10 - R.r01) * (0.5 / t), (R.r02 + R.r20) * (0.5 / t),
     (R.r21 + R.r12) * (0.5 / t), 0.5 * t⟩

/-- The DCM-to-quaternion conversion as amended: when the trace is not
positive, the branch of the largest diagonal element is selected with ties
broken toward the LATER element (`R22` over `R11` over `R00`); each branch
applies the standard extraction formula, identical to those of the source. -/
def Quaternion.ofDcmAmended (R : Dcm) : Quaternion :=
  if R.trace > 0 then
    let t := Real.sqrt (1 + R.trace)
    ⟨0.5 * t, (R.r21 - R.r12) * (0.5 / t), (R.r02 - R.r20) * (0.5 / t),
     (R.r10 - R.r01) * (0.5 / t)⟩
  else if R.r22 ≥ R.r00 ∧ R.r22 ≥ R.r11 then
    let t := Real.sqrt (1 - R.r00 - R.r11 + R.r22)
    ⟨(R.r10 - R.r01) * (0.5 / t), (R.r02 + R.r20) * (0.5 / t),
     (R.r21 + R.r12) * (0.5 / t), 0.5 * t⟩
  else if R.r11 ≥ R.r00 then
    let t := Real.sqrt (1 - R.r00 + R.r11 - R.r22)
    ⟨(R.r02 - R.r20) * (0.5 / t), (R.r10 + R.r01) * (0.5 / t), 0.5 * t,
     (R.r21 + R.r12) * (0.5 / t)⟩
  else
    let t := Real.sqrt (1 + R.r00 - R.r11 - R.r22)
    ⟨(R.r21 - R.r12) * (0.5 / t), 0.5 * t, (R.r10 + R.r01) * (0.5 / t),
     (R.r02 + R.r20) * (0.5 / t)⟩

/- ---------------------------------------------------------------------
C1: the DCM-to-quaternion branch structure.
--------------------------------------------------------------------- -/

/-- C1 counterexample: at `R = diag(0, 0, -1)` the trace is `-1 ≤ 0` and the
largest diagonal value `0` is attained by both `R00` and `R11`.  The claimed
tie-break (`R00` first) takes the `R00` branch, giving `q1 = 0.5*sqrt 2 ≠ 0`;
the strict source comparison `R00 > R11` fails, the code takes the `R11`
branch, and `q1 = (R10 + R01)*(0.5/s) = 0`. -/
theorem C1_tiebreak_counterexample :
    Quaternion.ofDcm ⟨0, 0, 0, 0, 0, 0, 0, 0, -1⟩ ≠
      Quaternion.ofDcmClaim ⟨0, 0, 0, 0, 0, 0, 0, 0, -1⟩ := by
  intro hh
  have h1 := congrArg Quaternion.q1 hh
  norm_num [Quaternion.ofDcm, Quaternion.ofDcmClaim, Dcm.trace] at h1

/-- C1 (amended): the constructor from a DCM is the claimed four-way branch,
except that in the non-positive-trace case ties between equal largest
diagonal elements are broken toward the later element (`R22` over `R11` over
`R00`): the code takes the `R00` branch only when `R00` is strictly largest,
and the `R11` branch only when additionally `R11 > R22`. -/
theorem C1_from_dcm_amended (R : Dcm) :
    Quaternion.ofDcm R = Quaternion.ofDcmAmended R := by
  unfold Quaternion.ofDcm Quaternion.ofDcmAmended
  by_cases hA0 : R.trace > 0
  · rw [if_pos hA0, if_pos hA0]
  · rw [if_neg hA0, if_neg hA0]
    by_cases hA1 : R.r00 > R.r11 ∧ R.r00 > R.r22
    · rw [if_pos hA1,
        if_neg (by rintro ⟨h1, h2⟩; exact absurd hA1.2 (not_lt.mpr h1)),
        if_neg (by intro h1; exact absurd hA1.1 (not_lt.mpr h1))]
    · rw [if_neg hA1]
      by_cases hA2 : R.r11 > R.r22
      · have hb2 : R.r11 ≥ R.r00 := by
          by_contra hc
          push_neg at hc
          exact hA1 ⟨hc, by linarith⟩
        rw [if_pos hA2,
          if_neg (by rintro ⟨h1, h2⟩; exact absurd hA2 (not_lt.mpr h2)),
          if_pos hb2]
      · have hb1 : R.r22 ≥ R.r00 := by
          by_contra hc
          push_neg at hc
          exact hA1 ⟨by linarith [not_lt.mp hA2], hc⟩
        rw [if_neg hA2, if_pos ⟨hb1, not_lt.mp hA2⟩]

/- ---------------------------------------------------------------------
C2: the small-angle guard of the axis-angle entry points.
--------------------------------------------------------------------- -/

/-- C2: the small-angle guard of the two-argument `from_axis_angle` is dead.
At axis `(1,0,0)` and `theta = -π` (which satisfies `theta < 1e-10`) the
result is `(cos(-π/2), sin(-π/2), 0, 0) = (0, -1, 0, 0)`, not the identity
`(1,0,0,0)` the claim promises, because the identity assigned by the guard
is overwritten by the unconditional half-angle assignments. -/
theorem C2_small_angle_guard_dead :
    -Real.pi < 1e-10 ∧
    Quaternion.from_axis_angle2 ⟨1, 0, 0, 0⟩ ⟨1, 0, 0⟩ (-Real.pi) =
      ⟨0, -1, 0, 0⟩ ∧
    Quaternion.mk 0 (-1) 0 0 ≠ ⟨1, 0, 0, 0⟩ := by
  refine ⟨by nlinarith [Real.pi_pos], ?_, ?_⟩
  · ext <;>
      simp [Quaternion.from_axis_angle2, neg_div, Real.cos_pi_div_two,
        Real.sin_pi_div_two]
  · intro hh
    exact one_ne_zero (congrArg Quaternion.q0 hh).symm

/-- The AxisAngle constructor (the other entry point named by the claim) does force the
identity below the threshold: its small-angle branch is a real if/else. -/
theorem ofAxisAngle_small_angle (aa : Vector3) (h : aa.norm < 1e-10) :
    Quaternion.ofAxisAngle aa = ⟨1, 0, 0, 0⟩ := by
  simp only [Quaternion.ofAxisAngle]
  rw [if_pos h]

/- ---------------------------------------------------------------------
C3: to_axis_angle.
--------------------------------------------------------------------- -/

/-- C3 counterexample: at `q = (1, 1e-11, 0, 0)` the axis magnitude is
`1e-11 < 1e-10`, and `to_axis_angle` returns `(1e-11, 0, 0)` — the
unscaled imaginary part, not the zero 3-vector the claim states. -/
theorem C3_small_magnitude_counterexample :
    Real.sqrt ((1e-11 : ℝ) * 1e-11 + 0 * 0 + 0 * 0) < 1e-10 ∧
    Quaternion.to_axis_angle ⟨1, 1e-11, 0, 0⟩ = ⟨1e-11, 0, 0⟩ ∧
    Vector3.mk 1e-11 0 0 ≠ ⟨0, 0, 0⟩ := by
  have hs : Real.sqrt ((1e-11 : ℝ) * 1e-11 + 0 * 0 + 0 * 0) = 1e-11 := by
    rw [show ((1e-11 : ℝ) * 1e-11 + 0 * 0 + 0 * 0) = (1e-11 : ℝ) ^ 2 by ring]
    exact Real.sqrt_sq (by norm_num)
  refine ⟨by rw [hs]; norm_num, ?_, ?_⟩
  · simp only [Quaternion.to_axis_angle]
    rw [hs, if_neg (by norm_num)]
  · intro hh
    have h0 := congrArg Vector3.x0 hh
    norm_num at h0

/-- C3 (amended): for every quaternion `q`, if the axis magnitude
`sqrt(x²+y²+z²)` is below `1e-10` then `to_axis_angle` returns the vector
`(x,y,z)` unchanged (a vector of norm below `1e-10`, not necessarily the
zero vector); otherwise it returns `(x,y,z)/axis_magnitude` scaled by
`2*atan2(axis_magnitude, w)` wrapped into `(-π, π]`. -/
theorem C3_to_axis_angle_amended (q : Quaternion) :
    Quaternion.to_axis_angle q =
      if Real.sqrt (q.q1 * q.q1 + q.q2 * q.q2 + q.q3 * q.q3) < 1e-10 then
        ⟨q.q1, q.q2, q.q3⟩
      else
        (Vector3.divS ⟨q.q1, q.q2, q.q3⟩
            (Real.sqrt (q.q1 * q.q1 + q.q2 * q.q2 + q.q3 * q.q3))).scale
          (wrap_pi (2 * atan2
            (Real.sqrt (q.q1 * q.q1 + q.q2 * q.q2 + q.q3 * q.q3)) q.q0)) := by
  simp only [Quaternion.to_axis_angle]
  rcases lt_or_ge (Real.sqrt (q.q1 * q.q1 + q.q2 * q.q2 + q.q3 * q.q3))
      (1e-10 : ℝ) with hlt | hge
  · rw [if_neg (not_le.mpr hlt), if_pos hlt]
  · rw [if_pos hge, if_neg (not_lt.mpr hge)]

/- ---------------------------------------------------------------------
C4: the Hamilton product formula and non-commutativity.
--------------------------------------------------------------------- -/

/-- C4: for every pair of quaternions `p` and `q` the product has the stated
Hamilton components, and there exist `p`, `q` with `p*q ≠ q*p`. -/
theorem C4_hamilton_product :
    (∀ p q : Quaternion, p.mul q =
      ⟨p.q0 * q.q0 - p.q1 * q.q1 - p.q2 * q.q2 - p.q3 * q.q3,
       p.q0 * q.q1 + p.q1 * q.q0 + p.q2 * q.q3 - p.q3 * q.q2,
       p.q0 * q.q2 - p.q1 * q.q3 + p.q2 * q.q0 + p.q3 * q.q1,
       p.q0 * q.q3 + p.q1 * q.q2 - p.q2 * q.q1 + p.q3 * q.q0⟩) ∧
    (∃ p q : Quaternion, p.mul q ≠ q.mul p) := by
  refine ⟨fun p q => rfl, ⟨0, 1, 0, 0⟩, ⟨0, 0, 1, 0⟩, ?_⟩
  intro h
  have h3 := congrArg Quaternion.q3 h
  simp [Quaternion.mul] at h3
  linarith

/- ---------------------------------------------------------------------
C9: identity quaternion laws.
--------------------------------------------------------------------- -/

/-- C9: the no-argument constructor yields `(1,0,0,0)`; `q * identity = q`
for every `q`; `identity.inversed() = identity`; conjugating any 3-vector
with the identity returns it unchanged. -/
theorem C9_identity_laws :
    Quaternion.default = ⟨1, 0, 0, 0⟩ ∧
    (∀ q : Quaternion, q.mul Quaternion.default = q) ∧
    Quaternion.default.inversed = Quaternion.default ∧
    (∀ v : Vector3, Quaternion.default.conjugate v = v) := by
  refine ⟨rfl, ?_, ?_, ?_⟩
  · intro q
    ext <;> simp [Quaternion.mul, Quaternion.default]
  · ext <;> simp [Quaternion.inversed, Quaternion.default, Quaternion.dot]
  · intro v
    ext <;>
      simp [Quaternion.conjugate, Quaternion.mul, Quaternion.inversed,
        Quaternion.default, Quaternion.dot]

/- ---------------------------------------------------------------------
C10: the Hamilton product is norm-multiplicative.
--------------------------------------------------------------------- -/

/-- C10: `(p*q)·(p*q) = (p·p)(q·q)` for all quaternions, so the product of
two unit quaternions is again a unit quaternion. -/
theorem C10_norm_multiplicative :
    (∀ p q : Quaternion, (p.mul q).dot (p.mul q) = p.dot p * q.dot q) ∧
    (∀ p q : Quaternion, p.dot p = 1 → q.dot q = 1 →
      (p.mul q).dot (p.mul q) = 1) := by
  constructor
  · intro p q
    simp only [Quaternion.mul, Quaternion.dot]
    ring
  · intro p q hp hq
    calc (p.mul q).dot (p.mul q) = p.dot p * q.dot q := by
          simp only [Quaternion.mul, Quaternion.dot]; ring
      _ = 1 := by rw [hp, hq]; norm_num

/- ---------------------------------------------------------------------
C5: inversion of a nonzero quaternion.
--------------------------------------------------------------------- -/

theorem sum_four_mul_self_zero {a b c d : ℝ}
    (h : a * a + b * b + c * c + d * d = 0) :
    a = 0 ∧ b = 0 ∧ c = 0 ∧ d = 0 := by
  have ha : a * a = 0 := le_antisymm
    (by nlinarith [mul_self_nonneg b, mul_self_nonneg c, mul_self_nonneg d])
    (mul_self_nonneg a)
  have hb : b * b = 0 := le_antisymm
    (by nlinarith [mul_self_nonneg a, mul_self_nonneg c, mul_self_nonneg d])
    (mul_self_nonneg b)
  have hc : c * c = 0 := le_antisymm
    (by nlinarith [mul_self_nonneg a, mul_self_nonneg b, mul_self_nonneg d])
    (mul_self_nonneg c)
  have hd : d * d = 0 := le_antisymm
    (by nlinarith [mul_self_nonneg a, mul_self_nonneg b, mul_self_nonneg c])
    (mul_self_nonneg d)
  exact ⟨mul_self_eq_zero.mp ha, mul_self_eq_zero.mp hb,
    mul_self_eq_zero.mp hc, mul_self_eq_zero.mp hd⟩

theorem Quaternion.dot_self_ne_zero {q : Quaternion} (h : q ≠ ⟨0, 0, 0, 0⟩) :
    q.dot q ≠ 0 := by
  intro h0
  simp only [Quaternion.dot] at h0
  obtain ⟨h1, h2, h3, h4⟩ := sum_four_mul_self_zero h0
  exact h (by ext <;> assumption)

/-- C5: for every nonzero quaternion, `inversed` is the conjugate divided
componentwise by the squared norm, and `q * q.inversed()` is the identity
quaternion in exact arithmetic. -/
theorem C5_inversed_nonzero (q : Quaternion) (h : q ≠ ⟨0, 0, 0, 0⟩) :
    q.inversed = ⟨q.q0 / q.dot q, -q.q1 / q.dot q,
                  -q.q2 / q.dot q, -q.q3 / q.dot q⟩ ∧
    q.mul q.inversed = ⟨1, 0, 0, 0⟩ := by
  have hn : q.dot q ≠ 0 := Quaternion.dot_self_ne_zero h
  refine ⟨rfl, ?_⟩
  ext <;> simp only [Quaternion.mul, Quaternion.inversed] <;>
    field_simp <;> simp only [Quaternion.dot] <;> ring

/-- Witness for C5 at the concrete nonzero quaternion `(1,2,3,4)`. -/
theorem C5_inversed_nonzero_witness :
    (Quaternion.mk 1 2 3 4 ≠ ⟨0, 0, 0, 0⟩) ∧
    (Quaternion.mk 1 2 3 4).mul (Quaternion.mk 1 2 3 4).inversed =
      ⟨1, 0, 0, 0⟩ :=
  ⟨fun h => one_ne_zero (congrArg Quaternion.q0 h),
    (C5_inversed_nonzero ⟨1, 2, 3, 4⟩
      (fun h => one_ne_zero (congrArg Quaternion.q0 h))).2⟩

/- ---------------------------------------------------------------------
C6: rotating with q and then with q.inversed() recovers the vector.
--------------------------------------------------------------------- -/

/-- C6: for every unit quaternion `q` and 3-vector `v`,
`q.inversed().conjugate(q.conjugate(v)) = v` in exact arithmetic. -/
theorem C6_conjugate_inverse_law (q : Quaternion) (h : q.dot q = 1)
    (v : Vector3) :
    q.inversed.conjugate (q.conjugate v) = v := by
  have h1 : q.inversed = q.conj := Quaternion.inversed_of_unit h
  have h2 : q.conj.inversed = q := Quaternion.conj_inversed_of_unit h
  simp only [Quaternion.conjugate]
  simp only [h1, h2]
  simp only [Quaternion.mul, Quaternion.conj]
  simp only [Quaternion.dot] at h
  refine Vector3.ext ?_ ?_ ?_ <;> dsimp only
  · linear_combination
      (q.q0 * q.q0 + q.q1 * q.q1 + q.q2 * q.q2 + q.q3 * q.q3 + 1) * v.x0 * h
  · linear_combination
      (q.q0 * q.q0 + q.q1 * q.q1 + q.q2 * q.q2 + q.q3 * q.q3 + 1) * v.x1 * h
  · linear_combination
      (q.q0 * q.q0 + q.q1 * q.q1 + q.q2 * q.q2 + q.q3 * q.q3 + 1) * v.x2 * h

/-- Witness for C6 at the concrete unit quaternion `(0.6, 0.8, 0, 0)` and
vector `(1, 2, 3)`. -/
theorem C6_conjugate_inverse_law_witness :
    (Quaternion.mk 0.6 0.8 0 0).dot ⟨0.6, 0.8, 0, 0⟩ = 1 ∧
    (Quaternion.mk 0.6 0.8 0 0).inversed.conjugate
      ((Quaternion.mk 0.6 0.8 0 0).conjugate ⟨1, 2, 3⟩) = ⟨1, 2, 3⟩ :=
  ⟨by norm_num [Quaternion.dot],
    C6_conjugate_inverse_law ⟨0.6, 0.8, 0, 0⟩
      (by norm_num [Quaternion.dot]) ⟨1, 2, 3⟩⟩

/- ---------------------------------------------------------------------
C7: the two quaternion derivatives.
--------------------------------------------------------------------- -/

/-- C7: `derivative1 w = 0.5 * (q * (0,w))` (target-frame rate) and
`derivative2 w = 0.5 * ((0,w) * q)` (reference-frame rate); both vanish at
`w = (0,0,0)` for every `q`. -/
theorem C7_derivatives :
    (∀ (q : Quaternion) (w : Vector3),
      q.derivative1 w = Quaternion.smul 0.5 (q.mul ⟨0, w.x0, w.x1, w.x2⟩) ∧
      q.derivative2 w =
        Quaternion.smul 0.5 ((Quaternion.mk 0 w.x0 w.x1 w.x2).mul q)) ∧
    (∀ q : Quaternion,
      q.derivative1 ⟨0, 0, 0⟩ = ⟨0, 0, 0, 0⟩ ∧
      q.derivative2 ⟨0, 0, 0⟩ = ⟨0, 0, 0, 0⟩) := by
  refine ⟨fun q w => ⟨rfl, rfl⟩, fun q => ⟨?_, ?_⟩⟩ <;>
    ext <;>
      simp [Quaternion.derivative1, Quaternion.derivative2, Quaternion.smul,
        Quaternion.mul]

/- ---------------------------------------------------------------------
C8: the Euler-to-quaternion constructor.
--------------------------------------------------------------------- -/

/-- The constructor `Quaternion(const Euler<Type> &euler)` (Quaternion.hpp
lines 146-164), with the Euler triple passed as the three angles
`(phi, theta, psi)` its accessors return. -/
def Quaternion.ofEuler (phi theta psi : ℝ) : Quaternion :=
  let cosPhi_2 := Real.cos (phi / 2)
  let cosTheta_2 := Real.cos (theta / 2)
  let cosPsi_2 := Real.cos (psi / 2)
  let sinPhi_2 := Real.sin (phi / 2)
  let sinTheta_2 := Real.sin (theta / 2)
  let sinPsi_2 := Real.sin (psi / 2)
  ⟨cosPhi_2 * cosTheta_2 * cosPsi_2 + sinPhi_2 * sinTheta_2 * sinPsi_2,
   sinPhi_2 * cosTheta_2 * cosPsi_2 - cosPhi_2 * sinTheta_2 * sinPsi_2,
   cosPhi_2 * sinTheta_2 * cosPsi_2 + sinPhi_2 * cosTheta_2 * sinPsi_2,
   cosPhi_2 * cosTheta_2 * sinPsi_2 - sinPhi_2 * sinTheta_2 * cosPsi_2⟩

/-- C8: for every Euler triple the constructed quaternion equals the explicit
4-term half-angle formula of the 3-2-1 intrinsic sequence; the conversion is
total (stated for every real input, including `theta = ±π/2`). -/
theorem C8_euler_to_quaternion (phi theta psi : ℝ) :
    Quaternion.ofEuler phi theta psi =
      ⟨Real.cos (phi / 2) * Real.cos (theta / 2) * Real.cos (psi / 2) +
         Real.sin (phi / 2) * Real.sin (theta / 2) * Real.sin (psi / 2),
       Real.sin (phi / 2) * Real.cos (theta / 2) * Real.cos (psi / 2) -
         Real.cos (phi / 2) * Real.sin (theta / 2) * Real.sin (psi / 2),
       Real.cos (phi / 2) * Real.sin (theta / 2) * Real.cos (psi / 2) +
         Real.sin (phi / 2) * Real.cos (theta / 2) * Real.sin (psi / 2),
       Real.cos (phi / 2) * Real.cos (theta / 2) * Real.sin (psi / 2) -
         Real.sin (phi / 2) * Real.sin (theta / 2) * Real.cos (psi / 2)⟩ :=
  rfl

/-- Witness for C10 at concrete unit quaternions `(1,0,0,0)` and
`(0,0,0,1)`. -/
theorem C10_norm_multiplicative_witness :
    (Quaternion.mk 1 0 0 0).dot ⟨1, 0, 0, 0⟩ = 1 ∧
    (Quaternion.mk 0 0 0 1).dot ⟨0, 0, 0, 1⟩ = 1 ∧
    ((Quaternion.mk 1 0 0 0).mul ⟨0, 0, 0, 1⟩).dot
      ((Quaternion.mk 1 0 0 0).mul ⟨0, 0, 0, 1⟩) = 1 :=
  ⟨by norm_num [Quaternion.dot], by norm_num [Quaternion.dot],
    C10_norm_multiplicative.2 ⟨1, 0, 0, 0⟩ ⟨0, 0, 0, 1⟩
      (by norm_num [Quaternion.dot]) (by norm_num [Quaternion.dot])⟩

end PX4
